import Mathlib

/-!
Shallow embedding of the batch-allocation orchestrator of this repository
(files `src/ABS B&A/ppg_b_and_a_helpers/thread_b_and_a.py` and
`src/ABS B&A/ppg_b_and_a_helpers/newOrderValidation.py`).

The embedding models, per batch (counters are keyed per batch name and one
batch is processed sequentially by one worker; the tail passes are
single-threaded):
* the outcome classification of `createFullSOPickOrder` / `createOrder`,
* the first-line gating of `addOrderToBatch`,
* the per-SO main-pass step `_process_single_batch_row` (loop body),
* the two tail passes `_retry_deferred_tail` and
  `_retry_deferred_create_then_add_tail`,
* the shard reconciliation `_append_unique` /
  `_apply_deferred_successes_to_parquets`,
* the FIFO queue load and worker count of `run_specificBatches_optimized`.
-/

namespace BandA

/-- HTTP outcome of submitting a create-order request, as classified by
`createFullSOPickOrder` (newOrderValidation.py:452-511): 2xx success, 409
conflict, 504 gateway timeout, 500 server error, any other HTTP error, or a
network-level (non-HTTP) exception. -/
inductive CreateHttp where
  | ok
  | conflict
  | gatewayTimeout
  | serverError
  | otherError
  | netError
deriving DecidableEq, Repr

/-- Python value returned by `createFullSOPickOrder`/`createOrder`: a JSON
dict (whose Python truthiness is `truthy`; an empty dict is falsy), the
`DEFER_CREATE_SENTINEL` dict, or a bare `True`/`False`. -/
inductive CreateRet where
  | dict (truthy : Bool)
  | sentinel
  | bool (b : Bool)
deriving DecidableEq, Repr

/-- Python truthiness of a `CreateRet` value (the sentinel is a non-empty
dict, hence truthy, but callers test `defer_create` first). -/
def CreateRet.isTruthy : CreateRet → Bool
  | .dict t => t
  | .sentinel => true
  | .bool b => b

/-- Test performed by the callers of `createOrder`
(`isinstance(created, dict) and created.get("defer_create")`,
thread_b_and_a.py:182 and 440): true exactly for the defer sentinel. -/
def CreateRet.isDefer : CreateRet → Bool
  | .sentinel => true
  | _ => false

/-- Embedding of `createFullSOPickOrder` (newOrderValidation.py:398-511),
restricted to its outcome classification. `respTruthy` is the Python
truthiness of the parsed JSON body of a 2xx response (`data` stays `{}`,
falsy, when the body is missing or unparseable). HTTP 2xx returns that dict;
409 returns `True`; 504 returns `True` on both visibility branches
(lines 485 and 487); 500 returns the defer sentinel; any other HTTP error
returns `False`; a non-HTTP exception returns `True` on both branches
(lines 508 and 511). -/
def createFullSOPickOrder (http : CreateHttp) (respTruthy : Bool) : CreateRet :=
  match http with
  | .ok => .dict respTruthy
  | .conflict => .bool true
  | .gatewayTimeout => .bool true
  | .serverError => .sentinel
  | .otherError => .bool false
  | .netError => .bool true

/-- One row of the source BOM for a sales order; `ppgItem` is the
`U_PLS_PPG_ITEM` column. -/
structure BomRow where
  ppgItem : String
deriving DecidableEq, Repr

/-- Embedding of `createOrder` (newOrderValidation.py:513-603). The first
component is the returned Python value, the second is whether a create
request was actually submitted to the remote service. If the order is
already visible in the PPG snapshot it returns `True` without submitting
(line 525); if the BOM filtered to `U_PLS_PPG_ITEM == 'Y'` is empty it
returns `False` without submitting (line 535); otherwise it submits once
via `createFullSOPickOrder` and returns its result unchanged (line 603). -/
def createOrder (preVisible : Bool) (bom : List BomRow) (http : CreateHttp)
    (respTruthy : Bool) : CreateRet × Bool :=
  if preVisible then (.bool true, false)
  else if (bom.filter (fun r => r.ppgItem == "Y")).isEmpty then (.bool false, false)
  else (createFullSOPickOrder http respTruthy, true)

/-- Environment of one `addOrderToBatch` call (newOrderValidation.py:718-825):
whether the order is visible after the pre-wait, the fetched work-order-line
ids, the work-order-line ids returned by the one-time refetch on a
first-line first-attempt failure, whether `createBatch` succeeded, whether
the batch re-fetch returned a row, and the outcome of each assignment
attempt (`assignOk id k` is the outcome of assigning line `id` at retry
count `k`). -/
structure AddEnv where
  orderVisible : Bool
  woLines : List String
  refetch : List String
  batchCreateOk : Bool
  batchFetchOk : Bool
  assignOk : String → Nat → Bool

/-- Work-order-line id used for the second attempt on the first line: the
head of the refetched lines when the refetch returned any, else the
original id (newOrderValidation.py:798-805). -/
def refetchedId (a : AddEnv) (origId : String) : String :=
  match a.refetch with
  | [] => origId
  | x :: _ => x

/-- Whether the first work-order-line is successfully assigned within its
two attempts, the second attempt using the refetched id
(newOrderValidation.py:766-818). -/
def firstLineOk (a : AddEnv) : Bool :=
  match a.woLines with
  | [] => false
  | id :: _ => a.assignOk id 0 || a.assignOk (refetchedId a id) 1

/-- Embedding of `addOrderToBatch` (newOrderValidation.py:718-825),
restricted to its return value: it fails when the order is not visible,
when no work-order-lines exist, when the batch cannot be created or
re-fetched, or when the first line fails both attempts; lines after the
first are attempted but never affect the return value (line 820). -/
def addOrderToBatch (a : AddEnv) : Bool :=
  if a.orderVisible = false then false
  else if a.woLines.isEmpty then false
  else if a.batchCreateOk = false then false
  else if a.batchFetchOk = false then false
  else firstLineOk a

/-- Environment of one sales order within a batch run: its number, the
main-pass `createOrder` inputs (pre-check visibility, BOM rows, HTTP
outcome, response-body truthiness), the main-pass `addOrderToBatch`
environment, and the tail-pass inputs (existence re-check for the
assign-retry tail, the tail `addOrderToBatch` environment, the final
visibility wait, and the tail `createOrder` inputs). -/
structure SOEnv where
  so : String
  preVisible : Bool
  bom : List BomRow
  http : CreateHttp
  respTruthy : Bool
  add : AddEnv
  tailStillVisible : Bool
  tailAdd : AddEnv
  tailBecameVisible : Bool
  tailPreVisible : Bool
  tailHttp : CreateHttp
  tailRespTruthy : Bool

/-- State accumulated while running one batch: the per-batch success counter
`batch_order_counts[batch]`, the `allocated_arr` written to the shard's
`ordersBatched`, the deferred-assign and deferred-create queues for this
batch, the tail success lists (`deferred_success_map` / `late_success_map`
entries for this batch), the error-table rows `(soNum, reason)`, the list of
ranks at which a successful assignment was committed, the sales orders for
which a create request was submitted, and the sales orders for which
`addOrderToBatch` was called. -/
structure RunState where
  counter : Nat
  allocated : List String
  deferredAssign : List SOEnv
  deferredCreate : List SOEnv
  deferredSuccess : List String
  lateSuccess : List String
  errors : List (String × String)
  committedRanks : List Nat
  createSubmits : List String
  assignAttempts : List String

/-- Initial per-batch state: counter 0 and all lists empty
(thread_b_and_a.py:151-157, 601-604). -/
def initState : RunState :=
  ⟨0, [], [], [], [], [], [], [], [], []⟩

/-- Main-pass processing of one sales order: the loop body of
`_process_single_batch_row` (thread_b_and_a.py:159-206). `createOrder` is
called; on the defer sentinel the sales order is queued for the deferred
create pass and no assignment is attempted; on a truthy result
`addOrderToBatch` is attempted at rank `counter + 1` and on success the
counter is incremented and the order appended to `allocated_arr`, on
failure the order is queued for the deferred-assign tail; on a falsy result
an error row with reason `create_failed` is recorded. -/
def mainStep (st : RunState) (e : SOEnv) : RunState :=
  let r := createOrder e.preVisible e.bom e.http e.respTruthy
  let st1 := { st with createSubmits := st.createSubmits ++ (if r.2 then [e.so] else []) }
  if r.1.isDefer then
    { st1 with deferredCreate := st1.deferredCreate ++ [e] }
  else if r.1.isTruthy then
    let st2 := { st1 with assignAttempts := st1.assignAttempts ++ [e.so] }
    if addOrderToBatch e.add then
      { st2 with
        allocated := st2.allocated ++ [e.so]
        counter := st2.counter + 1
        committedRanks := st2.committedRanks ++ [st2.counter + 1] }
    else
      { st2 with deferredAssign := st2.deferredAssign ++ [e] }
  else
    { st1 with errors := st1.errors ++ [(e.so, "create_failed")] }

/-- Main pass over the batch's sales orders in input order
(thread_b_and_a.py:159). -/
def mainPass (envs : List SOEnv) (st : RunState) : RunState :=
  envs.foldl mainStep st

/-- One step of the assign-retry tail `_retry_deferred_tail`
(thread_b_and_a.py:358-376): skip if the order vanished; otherwise attempt
`addOrderToBatch` once at rank `counter + 1`, incrementing the counter and
recording the success on success, and only logging on failure. -/
def tail1Step (st : RunState) (e : SOEnv) : RunState :=
  if e.tailStillVisible = false then st
  else
    let st1 := { st with assignAttempts := st.assignAttempts ++ [e.so] }
    if addOrderToBatch e.tailAdd then
      { st1 with
        counter := st1.counter + 1
        committedRanks := st1.committedRanks ++ [st1.counter + 1]
        deferredSuccess := st1.deferredSuccess ++ [e.so] }
    else st1

/-- One step of the create-retry tail `_retry_deferred_create_then_add_tail`
(thread_b_and_a.py:422-460): if the order became visible during the final
wait it is treated as created without a new create call; otherwise
`createOrder` is attempted once more, a repeated defer sentinel is a
terminal give-up, and any other falsy result is a terminal failure; when
treated as created, `addOrderToBatch` is attempted once at rank
`counter + 1`. -/
def tail2Step (st : RunState) (e : SOEnv) : RunState :=
  if e.tailBecameVisible then
    let st1 := { st with assignAttempts := st.assignAttempts ++ [e.so] }
    if addOrderToBatch e.tailAdd then
      { st1 with
        counter := st1.counter + 1
        committedRanks := st1.committedRanks ++ [st1.counter + 1]
        lateSuccess := st1.lateSuccess ++ [e.so] }
    else st1
  else
    let r := createOrder e.tailPreVisible e.bom e.tailHttp e.tailRespTruthy
    let st1 := { st with createSubmits := st.createSubmits ++ (if r.2 then [e.so] else []) }
    if r.1.isDefer then st1
    else if r.1.isTruthy then
      let st2 := { st1 with assignAttempts := st1.assignAttempts ++ [e.so] }
      if addOrderToBatch e.tailAdd then
        { st2 with
          counter := st2.counter + 1
          committedRanks := st2.committedRanks ++ [st2.counter + 1]
          lateSuccess := st2.lateSuccess ++ [e.so] }
      else st2
    else st1

/-- Assign-retry tail pass over this batch's deferred-assign queue in
insertion order (thread_b_and_a.py:358-359). -/
def runTail1 (st : RunState) : RunState :=
  st.deferredAssign.foldl tail1Step st

/-- Create-retry tail pass over this batch's deferred-create queue in
insertion order (thread_b_and_a.py:422-423). -/
def runTail2 (st : RunState) : RunState :=
  st.deferredCreate.foldl tail2Step st

/-- Complete run for one batch: main pass, then the assign-retry tail, then
the create-retry tail (thread_b_and_a.py:634-659). -/
def fullRun (envs : List SOEnv) : RunState :=
  runTail2 (runTail1 (mainPass envs initState))

/-- Embedding of `_append_unique` (thread_b_and_a.py:53-64) at the level of
the parsed item list: append each new item if not already present,
preserving the original order, with new items at the end. -/
def appendUnique (existing : List String) (newItems : List String) : List String :=
  newItems.foldl (fun acc x => if x ∈ acc then acc else acc ++ [x]) existing

/-- One row of a per-worker result shard: the batch name, the parsed
`ordersBatched` list, and `soCount`. -/
structure ShardRow where
  batchName : String
  ordersBatched : List String
  soCount : Nat
deriving DecidableEq, Repr

/-- Application of one deferred-success map entry to one shard row, the
body of the inner loop of `_apply_deferred_successes_to_parquets`
(thread_b_and_a.py:314-328): when the entry's batch matches the row,
`ordersBatched` becomes its `_append_unique` with the added sales orders
and, only when the list actually changed, `soCount` is recomputed as the
number of entries of the new list. -/
def applyEntry (r : ShardRow) (p : String × List String) : ShardRow :=
  if r.batchName == p.1 then
    let newList := appendUnique r.ordersBatched p.2
    if newList == r.ordersBatched then r
    else { r with ordersBatched := newList, soCount := newList.length }
  else r

/-- Application of a deferred-success map to one shard row: fold of
`applyEntry` over the map entries (thread_b_and_a.py:314-328). -/
def applyRow (m : List (String × List String)) (r : ShardRow) : ShardRow :=
  m.foldl applyEntry r

/-- Embedding of `_apply_deferred_successes_to_parquets`
(thread_b_and_a.py:291-331): every row of every shard is updated by
`applyRow` with the deferred-success map. -/
def applyDeferred (m : List (String × List String)) (shards : List ShardRow) :
    List ShardRow :=
  shards.map (applyRow m)

/-- One row of the prepared batch table consumed by
`run_specificBatches_optimized`: the `PPG_BatchName` and `minDocDueDate`
columns (the due date modelled as a comparable ordinal). -/
structure BatchRow where
  ppgBatchName : String
  minDocDueDate : Nat
deriving DecidableEq, Repr

/-- Sort key used when the `minDocDueDate` column is present
(thread_b_and_a.py:583-587): due date ascending, then batch name
ascending. -/
def rowLeDue (a b : BatchRow) : Bool :=
  a.minDocDueDate < b.minDocDueDate ||
    (a.minDocDueDate == b.minDocDueDate && a.ppgBatchName ≤ b.ppgBatchName)

/-- Sort key used when the `minDocDueDate` column is absent
(thread_b_and_a.py:589): batch name ascending. -/
def rowLeName (a b : BatchRow) : Bool :=
  a.ppgBatchName ≤ b.ppgBatchName

/-- Order in which batch rows are loaded into the shared FIFO queue before
any worker starts (thread_b_and_a.py:578-592): a stable sort by due date
then name when the due-date column is present, else a stable sort by name
alone. -/
def queueLoad (hasDueCol : Bool) (rows : List BatchRow) : List BatchRow :=
  if hasDueCol then rows.mergeSort rowLeDue else rows.mergeSort rowLeName

/-- Number of workers started by `run_specificBatches_optimized`
(thread_b_and_a.py:635-637): `min(num_threads, total_batches)`. -/
def nWorkers (numThreads totalBatches : Nat) : Nat :=
  min numThreads totalBatches

/-- Density invariant for committed ranks: the list of committed ranks is
exactly `[1, 2, ..., counter]`. -/
def ranksDense (st : RunState) : Prop :=
  st.committedRanks = (List.range st.counter).map (fun k => k + 1)

/-- The first work-order-line fails both of its attempts, the second
attempt made with the refetched id (newOrderValidation.py:774-818). -/
def firstLineFailsBoth (a : AddEnv) : Bool :=
  match a.woLines with
  | [] => false
  | id :: _ => !a.assignOk id 0 && !a.assignOk (refetchedId a id) 1

/-- Well-formedness of a shard row as produced by the workers: `soCount`
counts the entries of `ordersBatched` and the entries are distinct. -/
def shardWF (r : ShardRow) : Prop :=
  r.soCount = r.ordersBatched.length ∧ r.ordersBatched.Nodup

/-- Assignment environment in which every attempt succeeds. -/
def allOkAdd : AddEnv :=
  ⟨true, ["w1", "w2"], [], true, true, fun _ _ => true⟩

/-- Assignment environment in which every attempt fails (so the first line
fails both its attempts). -/
def allFailAdd : AddEnv :=
  ⟨true, ["w1"], ["w1b"], true, true, fun _ _ => false⟩

/-- BOM with one row flagged as a PPG item. -/
def bomY : List BomRow := [⟨"Y"⟩]

/-- BOM with no row flagged as a PPG item. -/
def bomN : List BomRow := [⟨"N"⟩]

/-- Sales order whose first work-order-line fails both main-pass attempts
after a 409-create (used to exercise the first-line gate). -/
def soFirstLineFails : SOEnv :=
  ⟨"S2", false, bomY, .conflict, true, allFailAdd, true, allOkAdd,
    false, false, .ok, true⟩

/-- Sales order whose create returns HTTP 500 in the main pass and again at
the tail pass. -/
def soServerErrorTwice : SOEnv :=
  ⟨"S5", false, bomY, .serverError, true, allOkAdd, true, allOkAdd,
    false, false, .serverError, true⟩

/-- Sales order whose assignment fails both main-pass attempts and whose
single tail-pass retry fails as well, while the order stays visible. -/
def soTerminalAssignFail : SOEnv :=
  ⟨"S3", false, bomY, .conflict, true, allFailAdd, true, allFailAdd,
    false, false, .ok, true⟩

/-- Sales order whose create fails with an HTTP error other than
409/500/504. -/
def soOtherHttpError : SOEnv :=
  ⟨"S4", false, bomY, .otherError, true, allOkAdd, true, allOkAdd,
    false, false, .ok, true⟩

/-- Sales order whose create is acknowledged with HTTP 2xx but whose
response body parses to an empty (falsy) JSON dict. -/
def soOkEmptyBody : SOEnv :=
  ⟨"S6", false, bomY, .ok, false, allOkAdd, true, allOkAdd,
    false, false, .ok, true⟩

/-- Sales order whose create is acknowledged with HTTP 2xx and a non-empty
JSON body. -/
def soOkFullBody : SOEnv :=
  ⟨"S7", false, bomY, .ok, true, allOkAdd, true, allOkAdd,
    false, false, .ok, true⟩

/-- Sales order whose BOM has no PPG-flagged row. -/
def soNoPpgBom : SOEnv :=
  ⟨"S8", false, bomN, .ok, true, allOkAdd, true, allOkAdd,
    false, false, .ok, true⟩

/-- Concrete shard table with one row. -/
def shardsW : List ShardRow := [⟨"B1", ["SO1"], 1⟩]

/-- Concrete deferred-success map adding one sales order to batch B1. -/
def successMapW : List (String × List String) := [("B1", ["SO2"])]

/-- Concrete batch table used to exercise the FIFO queue load. -/
def rowsW : List BatchRow := [⟨"B2", 5⟩, ⟨"B1", 5⟩, ⟨"A9", 4⟩]

/-- Main-pass processing of one order preserves rank density: the branch
that commits appends exactly rank `counter + 1` and increments the
counter; every other branch leaves both untouched. -/
theorem ranksDense_mainStep (st : RunState) (e : SOEnv) (h : ranksDense st) :
    ranksDense (mainStep st e) := by
  unfold ranksDense at *
  simp only [mainStep]
  split
  · exact h
  · split
    · split
      · simp [h, List.range_succ]
      · exact h
    · exact h

/-- The assign-retry tail step preserves rank density. -/
theorem ranksDense_tail1Step (st : RunState) (e : SOEnv) (h : ranksDense st) :
    ranksDense (tail1Step st e) := by
  unfold ranksDense at *
  simp only [tail1Step]
  split
  · exact h
  · split
    · simp [h, List.range_succ]
    · exact h

/-- The create-retry tail step preserves rank density. -/
theorem ranksDense_tail2Step (st : RunState) (e : SOEnv) (h : ranksDense st) :
    ranksDense (tail2Step st e) := by
  unfold ranksDense at *
  simp only [tail2Step]
  split
  · split
    · simp [h, List.range_succ]
    · exact h
  · split
    · exact h
    · split
      · split
        · simp [h, List.range_succ]
        · exact h
      · exact h

/-- Folding any rank-density-preserving step over a list preserves rank
density. -/
theorem ranksDense_foldl (f : RunState → SOEnv → RunState)
    (hf : ∀ st e, ranksDense st → ranksDense (f st e)) :
    ∀ (l : List SOEnv) (st : RunState), ranksDense st → ranksDense (l.foldl f st)
  | [], _, h => h
  | e :: l, st, h => ranksDense_foldl f hf l (f st e) (hf st e h)

/-- A full run ends rank dense. -/
theorem ranksDense_fullRun (envs : List SOEnv) : ranksDense (fullRun envs) := by
  unfold fullRun runTail1 runTail2 mainPass
  apply ranksDense_foldl _ ranksDense_tail2Step
  apply ranksDense_foldl _ ranksDense_tail1Step
  apply ranksDense_foldl _ ranksDense_mainStep
  simp [ranksDense, initState]

/-- C1. Rank density: for every batch run (main pass plus both tail
passes), the ranks committed are exactly `1, 2, ..., K` in order, without
gaps or duplicates, where `K` is the final per-batch success counter —
the counter is incremented only on a confirmed successful assignment and
every attempt uses rank `counter + 1`. -/
theorem rank_density (envs : List SOEnv) :
    (fullRun envs).committedRanks =
      (List.range (fullRun envs).counter).map (fun k => k + 1) ∧
    (fullRun envs).committedRanks.Nodup ∧
    (fullRun envs).committedRanks.length = (fullRun envs).counter := by
  have h := ranksDense_fullRun envs
  unfold ranksDense at h
  refine ⟨h, ?_, ?_⟩
  · rw [h]
    exact List.Nodup.map (fun a b hab => by omega) (List.nodup_range _)
  · rw [h]
    simp

/-- When the first work-order-line fails both of its attempts, the first
line is not successfully assigned. -/
theorem firstLineOk_eq_false (a : AddEnv) (hfail : firstLineFailsBoth a = true) :
    firstLineOk a = false := by
  unfold firstLineFailsBoth at hfail
  unfold firstLineOk
  cases hwo : a.woLines with
  | nil => rfl
  | cons id rest =>
    rw [hwo] at hfail
    simp only [Bool.and_eq_true, Bool.not_eq_eq_eq_not, Bool.not_true] at hfail
    simp [hfail.1, hfail.2]

/-- When the first work-order-line fails both of its attempts,
`addOrderToBatch` returns failure. -/
theorem addOrderToBatch_eq_false (a : AddEnv) (hfail : firstLineFailsBoth a = true) :
    addOrderToBatch a = false := by
  unfold addOrderToBatch
  split
  · rfl
  · split
    · rfl
    · split
      · rfl
      · split
        · rfl
        · exact firstLineOk_eq_false a hfail

/-- C2. First-line gating: if a sales order's create result is truthy (not
the defer sentinel) but its first work-order-line fails both assignment
attempts (including the single refetch-and-retry), then `addOrderToBatch`
returns failure, the order is not appended to `ordersBatched`, the batch's
rank counter is unchanged (the rank is not consumed), and the order is
queued for the deferred-assign tail pass instead. -/
theorem first_line_gating (st : RunState) (e : SOEnv)
    (hdefer : (createOrder e.preVisible e.bom e.http e.respTruthy).1.isDefer = false)
    (htruthy : (createOrder e.preVisible e.bom e.http e.respTruthy).1.isTruthy = true)
    (hfail : firstLineFailsBoth e.add = true) :
    addOrderToBatch e.add = false ∧
    (mainStep st e).allocated = st.allocated ∧
    (mainStep st e).counter = st.counter ∧
    (mainStep st e).deferredAssign = st.deferredAssign ++ [e] ∧
    (e.so ∉ st.allocated → e.so ∉ (mainStep st e).allocated) := by
  have hadd := addOrderToBatch_eq_false e.add hfail
  refine ⟨hadd, ?_⟩
  simp only [mainStep, hdefer, htruthy, hadd]
  simp

/-- C2 witness: a concrete sales order whose create returned 409 and whose
first line fails both attempts is deferred without consuming a rank. -/
theorem first_line_gating_witness :
    addOrderToBatch soFirstLineFails.add = false ∧
    (mainStep initState soFirstLineFails).allocated = initState.allocated ∧
    (mainStep initState soFirstLineFails).counter = initState.counter ∧
    (mainStep initState soFirstLineFails).deferredAssign =
      initState.deferredAssign ++ [soFirstLineFails] ∧
    (soFirstLineFails.so ∉ initState.allocated →
      soFirstLineFails.so ∉ (mainStep initState soFirstLineFails).allocated) :=
  first_line_gating initState soFirstLineFails (by decide) (by decide) (by decide)

/-- Counting in a cons, with the head test expressed as a plain
if-then-else. -/
theorem count_cons_ite (x so : String) (l : List String) :
    (x :: l).count so = l.count so + (if x = so then 1 else 0) := by
  by_cases h : x = so <;> simp [h, List.count_cons]

/-- Appending an optional singleton bumps a count by at most one. -/
theorem count_append_opt (l : List String) (b : Bool) (x so : String) :
    (l ++ if b then [x] else []).count so ≤
      l.count so + (if x = so then 1 else 0) := by
  cases b <;>
    simp only [List.count_append, count_cons_ite, List.count_nil, List.append_nil,
      Bool.false_eq_true, if_false, if_true] <;>
    split_ifs <;> omega

/-- Folding a step that adds at most one tracked entry per processed sales
order increases a tracked count by at most the number of occurrences of the
sales order in the processed list. -/
theorem count_foldl_le (f : RunState → SOEnv → RunState) (g : RunState → List String)
    (so : String)
    (hf : ∀ st e, (g (f st e)).count so ≤ (g st).count so + (if e.so = so then 1 else 0)) :
    ∀ (l : List SOEnv) (st : RunState),
      (g (l.foldl f st)).count so ≤ (g st).count so + (l.map SOEnv.so).count so
  | [], st => by simp
  | e :: l, st => by
    have h1 := count_foldl_le f g so hf l (f st e)
    have h2 := hf st e
    simp only [List.foldl_cons, List.map_cons, count_cons_ite]
    split_ifs at h2 ⊢ <;> omega

/-- Folding a step that leaves a component unchanged leaves it unchanged. -/
theorem foldl_pres {β : Type} (f : RunState → SOEnv → RunState) (g : RunState → β)
    (hf : ∀ st e, g (f st e) = g st) :
    ∀ (l : List SOEnv) (st : RunState), g (l.foldl f st) = g st
  | [], _ => rfl
  | e :: l, st => (foldl_pres f g hf l (f st e)).trans (hf st e)

/-- The main-pass step submits at most one create request, and only for its
own sales order. -/
theorem mainStep_submits_le (st : RunState) (e : SOEnv) (so : String) :
    (mainStep st e).createSubmits.count so ≤
      st.createSubmits.count so + (if e.so = so then 1 else 0) := by
  simp only [mainStep]
  repeat' split
  all_goals dsimp only
  all_goals try simp only [List.count_append, count_cons_ite, List.count_nil, List.append_nil]
  all_goals first
  | (split_ifs <;> omega)
  | omega

/-- The main-pass step queues at most one deferred-create entry, and only
for its own sales order. -/
theorem mainStep_dc_le (st : RunState) (e : SOEnv) (so : String) :
    ((mainStep st e).deferredCreate.map SOEnv.so).count so ≤
      (st.deferredCreate.map SOEnv.so).count so + (if e.so = so then 1 else 0) := by
  simp only [mainStep]
  repeat' split
  all_goals dsimp only
  all_goals try simp only [List.map_append, List.map_cons, List.map_nil, List.count_append,
    count_cons_ite, List.count_nil]
  all_goals first
  | (split_ifs <;> omega)
  | omega

/-- The assign-retry tail never submits a create request. -/
theorem tail1Step_createSubmits (st : RunState) (e : SOEnv) :
    (tail1Step st e).createSubmits = st.createSubmits := by
  simp only [tail1Step]
  split
  · rfl
  · split <;> rfl

/-- The assign-retry tail never queues a deferred-create entry. -/
theorem tail1Step_deferredCreate (st : RunState) (e : SOEnv) :
    (tail1Step st e).deferredCreate = st.deferredCreate := by
  simp only [tail1Step]
  split
  · rfl
  · split <;> rfl

/-- The create-retry tail step submits at most one create request, and only
for its own sales order. -/
theorem tail2Step_submits_le (st : RunState) (e : SOEnv) (so : String) :
    (tail2Step st e).createSubmits.count so ≤
      st.createSubmits.count so + (if e.so = so then 1 else 0) := by
  simp only [tail2Step]
  repeat' split
  all_goals dsimp only
  all_goals try simp only [List.count_append, count_cons_ite, List.count_nil, List.append_nil]
  all_goals first
  | (split_ifs <;> omega)
  | omega

/-- C3. At-most-one duplicate-create protection: when a sales order occurs
at most once in the batch input, a create request is submitted for it at
most twice over the entire run — at most once during the main pass and at
most once more during the create-retry tail — and the tail submits nothing
at all for an order that became visible during the final visibility wait;
a repeated defer result at the tail is a terminal give-up. -/
theorem create_submitted_at_most_twice (envs : List SOEnv) (so : String)
    (h : (envs.map SOEnv.so).count so ≤ 1) :
    (fullRun envs).createSubmits.count so ≤ 2 ∧
    (mainPass envs initState).createSubmits.count so ≤ 1 ∧
    (∀ st e, e.tailBecameVisible = true →
      (tail2Step st e).createSubmits = st.createSubmits) := by
  have hm : (mainPass envs initState).createSubmits.count so ≤
      (envs.map SOEnv.so).count so := by
    have h' := count_foldl_le mainStep (fun st => st.createSubmits) so
      (fun st e => mainStep_submits_le st e so) envs initState
    simpa [mainPass, initState] using h'
  have hdc : ((mainPass envs initState).deferredCreate.map SOEnv.so).count so ≤
      (envs.map SOEnv.so).count so := by
    have h' := count_foldl_le mainStep (fun st => st.deferredCreate.map SOEnv.so) so
      (fun st e => mainStep_dc_le st e so) envs initState
    simpa [mainPass, initState] using h'
  have h1s : (runTail1 (mainPass envs initState)).createSubmits =
      (mainPass envs initState).createSubmits :=
    foldl_pres tail1Step (fun st => st.createSubmits) tail1Step_createSubmits _ _
  have h1d : (runTail1 (mainPass envs initState)).deferredCreate =
      (mainPass envs initState).deferredCreate :=
    foldl_pres tail1Step (fun st => st.deferredCreate) tail1Step_deferredCreate _ _
  refine ⟨?_, by omega, ?_⟩
  · have hle : (fullRun envs).createSubmits.count so ≤
        (runTail1 (mainPass envs initState)).createSubmits.count so +
        ((runTail1 (mainPass envs initState)).deferredCreate.map SOEnv.so).count so :=
      count_foldl_le tail2Step (fun st => st.createSubmits) so
        (fun st e => tail2Step_submits_le st e so)
        (runTail1 (mainPass envs initState)).deferredCreate
        (runTail1 (mainPass envs initState))
    rw [h1s, h1d] at hle
    omega
  · intro st e hv
    simp only [tail2Step, hv, eq_self_iff_true, if_true]
    split <;> rfl

/-- C3 witness: a concrete sales order that gets HTTP 500 in the main pass
and again at the tail is submitted at most twice. -/
theorem create_submitted_at_most_twice_witness :
    (fullRun [soServerErrorTwice]).createSubmits.count "S5" ≤ 2 ∧
    (mainPass [soServerErrorTwice] initState).createSubmits.count "S5" ≤ 1 ∧
    (∀ st e, e.tailBecameVisible = true →
      (tail2Step st e).createSubmits = st.createSubmits) :=
  create_submitted_at_most_twice [soServerErrorTwice] "S5" (by decide)

/-- The assign-retry tail step never writes an error row. -/
theorem tail1Step_errors (st : RunState) (e : SOEnv) :
    (tail1Step st e).errors = st.errors := by
  simp only [tail1Step]
  repeat' split
  all_goals rfl

/-- The create-retry tail step never writes an error row. -/
theorem tail2Step_errors (st : RunState) (e : SOEnv) :
    (tail2Step st e).errors = st.errors := by
  simp only [tail2Step]
  repeat' split
  all_goals rfl

/-- The create-retry tail step never queues a new deferred-create entry. -/
theorem tail2Step_deferredCreate (st : RunState) (e : SOEnv) :
    (tail2Step st e).deferredCreate = st.deferredCreate := by
  simp only [tail2Step]
  repeat' split
  all_goals rfl

/-- C4 counterexample: a concrete sales order whose first work-order-line
fails both main-pass attempts and whose single tail-pass retry also fails,
while the order stays visible, terminally fails assignment (absent from
`ordersBatched`, counter still 0) yet the error table of the run stays
empty — the tail passes only log final assignment failures. -/
theorem tail_assign_failure_no_error_row :
    addOrderToBatch soTerminalAssignFail.add = false ∧
    addOrderToBatch soTerminalAssignFail.tailAdd = false ∧
    soTerminalAssignFail.tailStillVisible = true ∧
    (fullRun [soTerminalAssignFail]).deferredAssign = [soTerminalAssignFail] ∧
    (fullRun [soTerminalAssignFail]).allocated = [] ∧
    (fullRun [soTerminalAssignFail]).counter = 0 ∧
    (fullRun [soTerminalAssignFail]).errors = [] :=
  ⟨rfl, rfl, rfl, rfl, rfl, rfl, rfl⟩

/-- C4 (amended). A sales order whose create returns a falsy, non-sentinel
result is recorded in the error table with reason `create_failed` and the
main pass continues with the remaining sales orders; by contrast, neither
tail pass ever adds a row to the error table — terminal assignment
failures at the tails (a failed tail retry, or a repeated defer) are only
logged. -/
theorem error_table_amended (st : RunState) (e : SOEnv)
    (hdefer : (createOrder e.preVisible e.bom e.http e.respTruthy).1.isDefer = false)
    (hfalsy : (createOrder e.preVisible e.bom e.http e.respTruthy).1.isTruthy = false) :
    (mainStep st e).errors = st.errors ++ [(e.so, "create_failed")] ∧
    (∀ st', (runTail1 st').errors = st'.errors) ∧
    (∀ st', (runTail2 st').errors = st'.errors) ∧
    (∀ rest st', mainPass (e :: rest) st' = mainPass rest (mainStep st' e)) := by
  refine ⟨?_, ?_, ?_, fun rest st' => rfl⟩
  · simp only [mainStep, hdefer, hfalsy]
    simp
  · intro st'
    exact foldl_pres tail1Step (fun s => s.errors) tail1Step_errors _ _
  · intro st'
    exact foldl_pres tail2Step (fun s => s.errors) tail2Step_errors _ _

/-- C4 (amended) witness: a concrete sales order whose create fails with an
HTTP error other than 409/500/504 gets a `create_failed` error row, and the
tail passes leave the error table unchanged. -/
theorem error_table_amended_witness :
    (mainStep initState soOtherHttpError).errors =
      initState.errors ++ [(soOtherHttpError.so, "create_failed")] ∧
    (∀ st', (runTail1 st').errors = st'.errors) ∧
    (∀ st', (runTail2 st').errors = st'.errors) ∧
    (∀ rest st', mainPass (soOtherHttpError :: rest) st' =
      mainPass rest (mainStep st' soOtherHttpError)) :=
  error_table_amended initState soOtherHttpError (by decide) (by decide)

/-- C5 counterexample: a create request acknowledged with HTTP 2xx whose
response body parses to an empty (falsy) JSON dict is NOT classified as
created by the controller — `createOrder` returns the falsy dict, the
assign step is never attempted, and the order is recorded as
`create_failed`. -/
theorem http_ok_empty_body_not_created :
    soOkEmptyBody.http = CreateHttp.ok ∧
    createOrder soOkEmptyBody.preVisible soOkEmptyBody.bom soOkEmptyBody.http
      soOkEmptyBody.respTruthy = (.dict false, true) ∧
    (mainStep initState soOkEmptyBody).assignAttempts = [] ∧
    (mainStep initState soOkEmptyBody).errors = [("S6", "create_failed")] :=
  ⟨rfl, rfl, rfl, rfl⟩

/-- C5 (amended). A create acknowledged with HTTP 409 always proceeds to
the assign step in the same pass, and one acknowledged with HTTP 2xx does
so provided the response body parses to a non-empty (truthy) JSON dict: in
those cases the returned result is truthy and not the defer sentinel, and
the controller attempts `addOrderToBatch`. (A 2xx acknowledgment with an
empty or unparseable body is instead classified as `create_failed`.) -/
theorem create_classification_amended (st : RunState) (e : SOEnv)
    (hpre : e.preVisible = false)
    (hbom : (e.bom.filter (fun r => r.ppgItem == "Y")).isEmpty = false)
    (hcase : e.http = CreateHttp.conflict ∨
      (e.http = CreateHttp.ok ∧ e.respTruthy = true)) :
    (createOrder e.preVisible e.bom e.http e.respTruthy).2 = true ∧
    (createOrder e.preVisible e.bom e.http e.respTruthy).1.isDefer = false ∧
    (createOrder e.preVisible e.bom e.http e.respTruthy).1.isTruthy = true ∧
    (mainStep st e).assignAttempts = st.assignAttempts ++ [e.so] := by
  have hco : createOrder e.preVisible e.bom e.http e.respTruthy =
      (createFullSOPickOrder e.http e.respTruthy, true) := by
    simp [createOrder, hpre, hbom]
  have hd : (createOrder e.preVisible e.bom e.http e.respTruthy).1.isDefer = false := by
    rcases hcase with h | ⟨h, htr⟩ <;> rw [h] at hco ⊢ <;>
      simp [hco, createFullSOPickOrder, CreateRet.isDefer]
  have ht : (createOrder e.preVisible e.bom e.http e.respTruthy).1.isTruthy = true := by
    rcases hcase with h | ⟨h, htr⟩ <;> rw [h] at hco ⊢ <;>
      simp_all [hco, createFullSOPickOrder, CreateRet.isTruthy]
  refine ⟨by simp [hco], hd, ht, ?_⟩
  simp only [mainStep, hd, ht]
  simp only [Bool.false_eq_true, if_false, if_true]
  split <;> simp

/-- C5 (amended) witness: a concrete create acknowledged with HTTP 2xx and
a non-empty body proceeds to the assign step. -/
theorem create_classification_amended_witness :
    (createOrder soOkFullBody.preVisible soOkFullBody.bom soOkFullBody.http
      soOkFullBody.respTruthy).2 = true ∧
    (createOrder soOkFullBody.preVisible soOkFullBody.bom soOkFullBody.http
      soOkFullBody.respTruthy).1.isDefer = false ∧
    (createOrder soOkFullBody.preVisible soOkFullBody.bom soOkFullBody.http
      soOkFullBody.respTruthy).1.isTruthy = true ∧
    (mainStep initState soOkFullBody).assignAttempts =
      initState.assignAttempts ++ [soOkFullBody.so] :=
  create_classification_amended initState soOkFullBody (by decide) (by decide)
    (Or.inr ⟨rfl, rfl⟩)

/-- C6. A create that returns HTTP 500: `createOrder` returns the defer
sentinel after exactly one submission (no in-pass retry), the assign step
is skipped for the pass (no `addOrderToBatch` call, counter unchanged, so
no rank is consumed), the sales order is queued in the deferred-create
tracker, and no error row is written. -/
theorem server_error_defers_create (st : RunState) (e : SOEnv)
    (hpre : e.preVisible = false)
    (hbom : (e.bom.filter (fun r => r.ppgItem == "Y")).isEmpty = false)
    (hhttp : e.http = CreateHttp.serverError) :
    createOrder e.preVisible e.bom e.http e.respTruthy = (.sentinel, true) ∧
    (mainStep st e).createSubmits = st.createSubmits ++ [e.so] ∧
    (mainStep st e).assignAttempts = st.assignAttempts ∧
    (mainStep st e).counter = st.counter ∧
    (mainStep st e).allocated = st.allocated ∧
    (mainStep st e).deferredCreate = st.deferredCreate ++ [e] ∧
    (mainStep st e).errors = st.errors := by
  have hco : createOrder e.preVisible e.bom e.http e.respTruthy = (.sentinel, true) := by
    simp [createOrder, hpre, hbom, hhttp, createFullSOPickOrder]
  refine ⟨hco, ?_⟩
  simp [mainStep, hco, CreateRet.isDefer]

/-- C6 witness: a concrete HTTP 500 create is deferred without consuming a
rank. -/
theorem server_error_defers_create_witness :
    createOrder soServerErrorTwice.preVisible soServerErrorTwice.bom
      soServerErrorTwice.http soServerErrorTwice.respTruthy = (.sentinel, true) ∧
    (mainStep initState soServerErrorTwice).createSubmits =
      initState.createSubmits ++ [soServerErrorTwice.so] ∧
    (mainStep initState soServerErrorTwice).assignAttempts =
      initState.assignAttempts ∧
    (mainStep initState soServerErrorTwice).counter = initState.counter ∧
    (mainStep initState soServerErrorTwice).allocated = initState.allocated ∧
    (mainStep initState soServerErrorTwice).deferredCreate =
      initState.deferredCreate ++ [soServerErrorTwice] ∧
    (mainStep initState soServerErrorTwice).errors = initState.errors :=
  server_error_defers_create initState soServerErrorTwice (by decide) (by decide) rfl

/-- C9. A sales order already visible in the remote snapshot when
`createOrder` is called: the function returns the treated-as-created
Python `True` and submits no create request, for every BOM, HTTP outcome
and response body — so the 500/504 classification branches are never
reached for it. -/
theorem already_visible_skips_create (bom : List BomRow) (http : CreateHttp)
    (respTruthy : Bool) :
    createOrder true bom http respTruthy = (.bool true, false) := rfl

/-- C10. A sales order whose BOM has no row with `U_PLS_PPG_ITEM == 'Y'`:
`createOrder` returns `False` without submitting a create request, the
controller records a `create_failed` error row, and the order is not
queued for the deferred-create tail (which never grows afterwards), so the
tail pass never revisits this terminal outcome. -/
theorem no_ppg_bom_create_failed (st : RunState) (e : SOEnv)
    (hpre : e.preVisible = false)
    (hbom : (e.bom.filter (fun r => r.ppgItem == "Y")).isEmpty = true) :
    createOrder e.preVisible e.bom e.http e.respTruthy = (.bool false, false) ∧
    (mainStep st e).errors = st.errors ++ [(e.so, "create_failed")] ∧
    (mainStep st e).createSubmits = st.createSubmits ∧
    (mainStep st e).deferredCreate = st.deferredCreate ∧
    (mainStep st e).assignAttempts = st.assignAttempts ∧
    (∀ st', (runTail1 st').deferredCreate = st'.deferredCreate) ∧
    (∀ st', (runTail2 st').deferredCreate = st'.deferredCreate) := by
  have hco : createOrder e.preVisible e.bom e.http e.respTruthy =
      (.bool false, false) := by
    simp [createOrder, hpre, hbom]
  refine ⟨hco, ?_, ?_, ?_, ?_, ?_, ?_⟩
  · simp [mainStep, hco, CreateRet.isDefer, CreateRet.isTruthy]
  · simp [mainStep, hco, CreateRet.isDefer, CreateRet.isTruthy]
  · simp [mainStep, hco, CreateRet.isDefer, CreateRet.isTruthy]
  · simp [mainStep, hco, CreateRet.isDefer, CreateRet.isTruthy]
  · intro st'
    exact foldl_pres tail1Step (fun s => s.deferredCreate) tail1Step_deferredCreate _ _
  · intro st'
    exact foldl_pres tail2Step (fun s => s.deferredCreate) tail2Step_deferredCreate _ _

/-- C10 witness: a concrete sales order with no PPG-flagged BOM row is
recorded as `create_failed` and never queued for the deferred-create
tail. -/
theorem no_ppg_bom_create_failed_witness :
    createOrder soNoPpgBom.preVisible soNoPpgBom.bom soNoPpgBom.http
      soNoPpgBom.respTruthy = (.bool false, false) ∧
    (mainStep initState soNoPpgBom).errors =
      initState.errors ++ [(soNoPpgBom.so, "create_failed")] ∧
    (mainStep initState soNoPpgBom).createSubmits = initState.createSubmits ∧
    (mainStep initState soNoPpgBom).deferredCreate = initState.deferredCreate ∧
    (mainStep initState soNoPpgBom).assignAttempts = initState.assignAttempts ∧
    (∀ st', (runTail1 st').deferredCreate = st'.deferredCreate) ∧
    (∀ st', (runTail2 st').deferredCreate = st'.deferredCreate) :=
  no_ppg_bom_create_failed initState soNoPpgBom (by decide) (by decide)

/-- Existing entries survive `appendUnique`. -/
theorem mem_appendUnique_left (x : String) (ys : List String) :
    ∀ xs, x ∈ xs → x ∈ appendUnique xs ys := by
  induction ys with
  | nil => intro xs h; exact h
  | cons y ys ih =>
    intro xs h
    show x ∈ appendUnique (if y ∈ xs then xs else xs ++ [y]) ys
    apply ih
    by_cases hy : y ∈ xs
    · simpa [hy] using h
    · simp [hy, List.mem_append, h]

/-- Every appended item is in the result of `appendUnique`. -/
theorem mem_appendUnique_right (x : String) :
    ∀ (ys xs : List String), x ∈ ys → x ∈ appendUnique xs ys := by
  intro ys
  induction ys with
  | nil => intro xs h; cases h
  | cons y ys ih =>
    intro xs h
    show x ∈ appendUnique (if y ∈ xs then xs else xs ++ [y]) ys
    rcases List.mem_cons.mp h with rfl | h2
    · apply mem_appendUnique_left
      by_cases hy : x ∈ xs <;> simp [hy]
    · exact ih _ h2

/-- When every new item is already present, `appendUnique` is the
identity. -/
theorem appendUnique_eq_self (ys : List String) :
    ∀ xs, (∀ y ∈ ys, y ∈ xs) → appendUnique xs ys = xs := by
  induction ys with
  | nil => intro xs _; rfl
  | cons y ys ih =>
    intro xs h
    have hy : y ∈ xs := h y (by simp)
    show appendUnique (if y ∈ xs then xs else xs ++ [y]) ys = xs
    rw [if_pos hy]
    exact ih xs (fun z hz => h z (by simp [hz]))

/-- Running `appendUnique` twice with the same items is the same as running
it once. -/
theorem appendUnique_twice (xs ys : List String) :
    appendUnique (appendUnique xs ys) ys = appendUnique xs ys :=
  appendUnique_eq_self ys _ (fun y hy => mem_appendUnique_right y ys xs hy)

/-- The function `appendUnique` only appends: the original list stays as an unchanged
initial segment. -/
theorem appendUnique_extends (ys : List String) :
    ∀ xs, ∃ t, appendUnique xs ys = xs ++ t := by
  induction ys with
  | nil => intro xs; exact ⟨[], by simp [appendUnique]⟩
  | cons y ys ih =>
    intro xs
    show ∃ t, appendUnique (if y ∈ xs then xs else xs ++ [y]) ys = xs ++ t
    by_cases hy : y ∈ xs
    · simpa [hy] using ih xs
    · obtain ⟨t, ht⟩ := ih (xs ++ [y])
      rw [if_neg hy, ht]
      exact ⟨[y] ++ t, by simp⟩

/-- The function `appendUnique` preserves distinctness of the entries. -/
theorem appendUnique_nodup (ys : List String) :
    ∀ xs, xs.Nodup → (appendUnique xs ys).Nodup := by
  induction ys with
  | nil => intro xs h; exact h
  | cons y ys ih =>
    intro xs h
    show (appendUnique (if y ∈ xs then xs else xs ++ [y]) ys).Nodup
    apply ih
    by_cases hy : y ∈ xs
    · simpa [hy] using h
    · simp [hy, List.nodup_append, h]

/-- The function `applyEntry` never changes the batch name of a row. -/
theorem applyEntry_batchName (r : ShardRow) (p : String × List String) :
    (applyEntry r p).batchName = r.batchName := by
  simp only [applyEntry]
  repeat' split
  all_goals rfl

/-- The function `applyRow` never changes the batch name of a row. -/
theorem applyRow_batchName (m : List (String × List String)) :
    ∀ r, (applyRow m r).batchName = r.batchName := by
  induction m with
  | nil => intro r; rfl
  | cons p m ih =>
    intro r
    show (applyRow m (applyEntry r p)).batchName = r.batchName
    rw [ih, applyEntry_batchName]

/-- The function `applyEntry` only appends to `ordersBatched`. -/
theorem applyEntry_extends (r : ShardRow) (p : String × List String) :
    ∃ t, (applyEntry r p).ordersBatched = r.ordersBatched ++ t := by
  simp only [applyEntry]
  split
  · split
    · exact ⟨[], by simp⟩
    · simpa using appendUnique_extends p.2 r.ordersBatched
  · exact ⟨[], by simp⟩

/-- The function `applyRow` only appends to `ordersBatched`. -/
theorem applyRow_extends (m : List (String × List String)) :
    ∀ r, ∃ t, (applyRow m r).ordersBatched = r.ordersBatched ++ t := by
  induction m with
  | nil => intro r; exact ⟨[], by simp [applyRow]⟩
  | cons p m ih =>
    intro r
    obtain ⟨t1, ht1⟩ := applyEntry_extends r p
    obtain ⟨t2, ht2⟩ := ih (applyEntry r p)
    refine ⟨t1 ++ t2, ?_⟩
    show (applyRow m (applyEntry r p)).ordersBatched = _
    rw [ht2, ht1, List.append_assoc]

/-- Membership in `ordersBatched` survives `applyRow`. -/
theorem mem_applyRow_of_mem (m : List (String × List String)) (r : ShardRow)
    (x : String) (h : x ∈ r.ordersBatched) : x ∈ (applyRow m r).ordersBatched := by
  obtain ⟨t, ht⟩ := applyRow_extends m r
  rw [ht]
  exact List.mem_append.mpr (Or.inl h)

/-- After `applyRow`, every sales order of every matching map entry is in
the row's `ordersBatched`. -/
theorem applyRow_complete (m : List (String × List String)) :
    ∀ r, ∀ p ∈ m, p.1 = r.batchName → ∀ y ∈ p.2, y ∈ (applyRow m r).ordersBatched := by
  induction m with
  | nil => intro r p hp; cases hp
  | cons q m ih =>
    intro r p hp hb y hy
    show y ∈ (applyRow m (applyEntry r q)).ordersBatched
    rcases List.mem_cons.mp hp with rfl | hp2
    · apply mem_applyRow_of_mem
      have hmem := mem_appendUnique_right y p.2 r.ordersBatched hy
      simp only [applyEntry]
      rw [if_pos (by simp [hb])]
      split
      · rename_i heq
        have heq' : appendUnique r.ordersBatched p.2 = r.ordersBatched := by
          simpa using heq
        rw [← heq']
        exact hmem
      · simpa using hmem
    · exact ih (applyEntry r q) p hp2 (by rw [applyEntry_batchName]; exact hb) y hy

/-- The function `applyEntry` is the identity when every sales order of a matching entry
is already present. -/
theorem applyEntry_eq_self (r : ShardRow) (p : String × List String)
    (h : p.1 = r.batchName → ∀ y ∈ p.2, y ∈ r.ordersBatched) :
    applyEntry r p = r := by
  simp only [applyEntry]
  split
  · rename_i hb
    have hb' : p.1 = r.batchName := by
      have := (beq_iff_eq (a := r.batchName) (b := p.1)).mp hb
      exact this.symm
    have hall := h hb'
    have heq : appendUnique r.ordersBatched p.2 = r.ordersBatched :=
      appendUnique_eq_self p.2 r.ordersBatched hall
    simp [heq]
  · rfl

/-- The function `applyRow` is the identity when every sales order of every matching
entry is already present. -/
theorem applyRow_eq_self (m : List (String × List String)) :
    ∀ r, (∀ p ∈ m, p.1 = r.batchName → ∀ y ∈ p.2, y ∈ r.ordersBatched) →
      applyRow m r = r := by
  induction m with
  | nil => intro r _; rfl
  | cons q m ih =>
    intro r h
    have hq : applyEntry r q = r := applyEntry_eq_self r q (h q (by simp))
    show applyRow m (applyEntry r q) = r
    rw [hq]
    exact ih r (fun p hp => h p (by simp [hp]))

/-- Applying the same deferred-success map to a row twice is the same as
applying it once. -/
theorem applyRow_idem (m : List (String × List String)) (r : ShardRow) :
    applyRow m (applyRow m r) = applyRow m r :=
  applyRow_eq_self m (applyRow m r)
    (fun p hp hb y hy =>
      applyRow_complete m r p hp (by rwa [applyRow_batchName] at hb) y hy)

/-- The function `applyEntry` preserves shard well-formedness. -/
theorem applyEntry_wf (r : ShardRow) (p : String × List String)
    (h : shardWF r) : shardWF (applyEntry r p) := by
  obtain ⟨hc, hn⟩ := h
  simp only [applyEntry]
  split
  · split
    · exact ⟨hc, hn⟩
    · exact ⟨rfl, appendUnique_nodup p.2 r.ordersBatched hn⟩
  · exact ⟨hc, hn⟩

/-- The function `applyRow` preserves shard well-formedness. -/
theorem applyRow_wf (m : List (String × List String)) :
    ∀ r, shardWF r → shardWF (applyRow m r) := by
  induction m with
  | nil => intro r h; exact h
  | cons p m ih =>
    intro r h
    exact ih (applyEntry r p) (applyEntry_wf r p h)

/-- C7. Idempotent merge: applying the same deferred-success map to the
shards twice yields exactly the same shard contents as applying it once;
on well-formed shards (where `soCount` counts the distinct entries of
`ordersBatched`) the merged rows remain well formed, and each row's
`ordersBatched` is only appended to — batch name unchanged, insertion
order preserved, nothing removed. -/
theorem idempotent_merge (m : List (String × List String)) (shards : List ShardRow)
    (hwf : ∀ r ∈ shards, shardWF r) :
    applyDeferred m (applyDeferred m shards) = applyDeferred m shards ∧
    (∀ r ∈ applyDeferred m shards, shardWF r) ∧
    (∀ r ∈ shards, (applyRow m r).batchName = r.batchName ∧
      ∃ t, (applyRow m r).ordersBatched = r.ordersBatched ++ t) := by
  refine ⟨?_, ?_, ?_⟩
  · unfold applyDeferred
    rw [List.map_map]
    exact List.map_congr_left (fun r _ => applyRow_idem m r)
  · intro r hr
    obtain ⟨r0, hr0, rfl⟩ := List.mem_map.mp hr
    exact applyRow_wf m r0 (hwf r0 hr0)
  · intro r _
    exact ⟨applyRow_batchName m r, applyRow_extends m r⟩

/-- C7 witness: merging the same one-entry success map twice into a
concrete one-row shard changes nothing the second time. -/
theorem idempotent_merge_witness :
    applyDeferred successMapW (applyDeferred successMapW shardsW) =
      applyDeferred successMapW shardsW ∧
    (∀ r ∈ applyDeferred successMapW shardsW, shardWF r) ∧
    (∀ r ∈ shardsW, (applyRow successMapW r).batchName = r.batchName ∧
      ∃ t, (applyRow successMapW r).ordersBatched = r.ordersBatched ++ t) :=
  idempotent_merge successMapW shardsW (by simp [shardsW, shardWF])

/-- The name-only sort key is transitive. -/
theorem rowLeName_trans (a b c : BatchRow) (h1 : rowLeName a b) (h2 : rowLeName b c) :
    rowLeName a c := by
  simp only [rowLeName, decide_eq_true_iff] at *
  exact le_trans h1 h2

/-- The name-only sort key is total. -/
theorem rowLeName_total (a b : BatchRow) : rowLeName a b || rowLeName b a := by
  simp only [rowLeName, Bool.or_eq_true, decide_eq_true_iff]
  exact le_total _ _

/-- The due-date-then-name sort key is transitive. -/
theorem rowLeDue_trans (a b c : BatchRow) (h1 : rowLeDue a b) (h2 : rowLeDue b c) :
    rowLeDue a c := by
  simp only [rowLeDue, Bool.or_eq_true, Bool.and_eq_true, decide_eq_true_iff,
    beq_iff_eq] at *
  rcases h1 with h1 | ⟨h1e, h1n⟩ <;> rcases h2 with h2 | ⟨h2e, h2n⟩
  · left; omega
  · left; omega
  · left; omega
  · right; exact ⟨by omega, le_trans h1n h2n⟩

/-- The due-date-then-name sort key is total. -/
theorem rowLeDue_total (a b : BatchRow) : rowLeDue a b || rowLeDue b a := by
  simp only [rowLeDue, Bool.or_eq_true, Bool.and_eq_true, decide_eq_true_iff,
    beq_iff_eq]
  rcases Nat.lt_trichotomy a.minDocDueDate b.minDocDueDate with h | h | h
  · left; left; exact h
  · rcases le_total a.ppgBatchName b.ppgBatchName with hn | hn
    · left; right; exact ⟨h, hn⟩
    · right; right; exact ⟨h.symm, hn⟩
  · right; left; exact h

/-- C8. FIFO queue load and worker count: the loaded queue is a permutation
of the batch rows; with the due-date column present it is sorted by due
date ascending then batch name ascending, without it by batch name alone;
both sorts are stable (any already-sorted sublist of the input remains a
sublist of the queue, so equal keys keep their input order); and exactly
`min(configuredWorkers, totalUnits)` workers are started. -/
theorem fifo_queue_sorted_and_workers (hasDueCol : Bool) (rows : List BatchRow)
    (numThreads : Nat) :
    (queueLoad hasDueCol rows).Perm rows ∧
    List.Pairwise (fun a b => rowLeDue a b = true) (queueLoad true rows) ∧
    List.Pairwise (fun a b => rowLeName a b = true) (queueLoad false rows) ∧
    (∀ c : List BatchRow, List.Pairwise (fun a b => rowLeDue a b = true) c →
      c.Sublist rows → c.Sublist (queueLoad true rows)) ∧
    (∀ c : List BatchRow, List.Pairwise (fun a b => rowLeName a b = true) c →
      c.Sublist rows → c.Sublist (queueLoad false rows)) ∧
    nWorkers numThreads rows.length = min numThreads rows.length := by
  refine ⟨?_, ?_, ?_, ?_, ?_, rfl⟩
  · unfold queueLoad
    split
    · exact List.mergeSort_perm rows rowLeDue
    · exact List.mergeSort_perm rows rowLeName
  · exact List.sorted_mergeSort rowLeDue_trans rowLeDue_total rows
  · exact List.sorted_mergeSort rowLeName_trans rowLeName_total rows
  · intro c hc hs
    exact List.sublist_mergeSort rowLeDue_trans rowLeDue_total hc hs
  · intro c hc hs
    exact List.sublist_mergeSort rowLeName_trans rowLeName_total hc hs

/-- C8 witness: on a concrete batch table the queue is a permutation, a
concrete sorted sublist stays a sublist (stability), and three rows with
five configured workers start three workers. -/
theorem fifo_queue_sorted_and_workers_witness :
    (queueLoad true rowsW).Perm rowsW ∧
    [BatchRow.mk "B1" 5].Sublist (queueLoad true rowsW) ∧
    nWorkers 5 rowsW.length = min 5 rowsW.length := by
  obtain ⟨h1, h2, h3, h4, h5, h6⟩ := fifo_queue_sorted_and_workers true rowsW 5
  exact ⟨h1, h4 [BatchRow.mk "B1" 5] (by simp) (by simp [rowsW]), h6⟩

end BandA
